import Mathlib

/-!
# The FIFO connector of `internal/vm/fifo.go`

A shallow embedding of `FIFOConnector` and of the Go runtime objects it
touches (a buffered channel, the file system seen through `fifo.OpenFifo`),
followed by the properties of the connector contract.

Go state is passed explicitly: a `World` holds the file system, the heap of
channels (a Go channel is a reference, here an index into that heap) and the
record of the calls made to `fifo.OpenFifo`.  An operation that can block
forever or panic returns `Except Fault`.
-/

namespace FirecrackerContainerd.VM

/-! ## Values of the Go side -/

/-- Go `error` values as far as the connector contract distinguishes them:
`context.Canceled`, `context.DeadlineExceeded`, and any failure of the
operating system, identified by its errno. -/
inductive GoError where
  | canceled
  | deadlineExceeded
  | errno (code : Nat)
  deriving DecidableEq, Repr

/-- An error whose cause is the cancellation or expiry of a context. -/
def GoError.isCancellation : GoError → Bool
  | .canceled => true
  | .deadlineExceeded => true
  | .errno _ => false

/-- A `context.Context`, reduced to what `ctx.Err()` reports: `none` while the
context is live, the cancellation error once it is done. -/
structure Context where
  err : Option GoError
  deriving DecidableEq, Repr

/-- The context has been canceled. -/
def Context.canceled (ctx : Context) : Bool :=
  ctx.err == some GoError.canceled

/-- A `*logrus.Entry`: the structured fields attached to the logger. -/
structure Entry where
  fields : List (String × String)
  deriving DecidableEq, Repr

/-- A non-nil `io.ReadWriteCloser`, identified by the descriptor behind it.  A
nil interface value is `none` of `Option ReadWriteCloser`. -/
structure ReadWriteCloser where
  fd : Nat
  deriving DecidableEq, Repr

/-- Modelled from the spec: the record `IOConnectorResult`, declared outside
`fifo.go`; "a record with two fields — a byte-stream handle and an error
value".  The field names are those used by `fifo.go`. -/
structure IOConnectorResult where
  ReadWriteCloser : Option ReadWriteCloser
  Err : Option GoError
  deriving DecidableEq, Repr

/-- The result carries a usable handle and no error. -/
def IOConnectorResult.fullySuccessful (r : IOConnectorResult) : Bool :=
  r.ReadWriteCloser.isSome && r.Err.isNone

/-- The result carries no handle and a populated error. -/
def IOConnectorResult.fullyFailed (r : IOConnectorResult) : Bool :=
  r.ReadWriteCloser.isNone && r.Err.isSome

/-! ## Constants of package `syscall` and the mode literal -/

/-- The value of `syscall.O_CREAT` on linux/amd64 and linux/arm64. -/
def O_CREAT : Nat := 0x40

/-- The value of `syscall.O_RDWR` on linux. -/
def O_RDWR : Nat := 0x2

/-- The value of `syscall.O_NONBLOCK` on linux/amd64 and linux/arm64. -/
def O_NONBLOCK : Nat := 0x800

/-- The value of `syscall.O_ACCMODE` on linux: the mask of the access mode. -/
def O_ACCMODE : Nat := 0x3

/-! ## The file system and the open -/

/-- Kind of a directory entry. -/
inductive FileKind where
  | fifo
  | regular
  | dir
  deriving DecidableEq, Repr

/-- The file-system namespace: which paths exist, and as what. -/
structure FS where
  entries : List (String × FileKind)
  deriving DecidableEq, Repr

/-- The kind of the entry at a path, if there is one. -/
def FS.kind (fs : FS) (path : String) : Option FileKind :=
  (fs.entries.find? (fun e => e.1 == path)).map (fun e => e.2)

/-- A named pipe exists at the path. -/
def FS.isFifo (fs : FS) (path : String) : Bool :=
  fs.kind path == some FileKind.fifo

/-- What one call of `fifo.OpenFifo` returns: the pair `(io.ReadWriteCloser, error)`. -/
abbrev OpenOutcome := Option ReadWriteCloser × Option GoError

/-- The open returned a handle and a nil error, or no handle and an error. -/
def OpenOutcome.wellFormed (o : OpenOutcome) : Bool :=
  (o.1.isSome && o.2.isNone) || (o.1.isNone && o.2.isSome)

/-- The behaviour of `fifo.OpenFifo(ctx, fn, flag, perm)` of the containerd
`fifo` package, which is not part of this repository: from the arguments and
the file system it yields the returned pair and the file system it leaves. -/
abbrev OpenFifoFn := Context → String → Nat → Nat → FS → OpenOutcome × FS

/-- One recorded call of `fifo.OpenFifo`, with its four arguments. -/
structure OpenCall where
  ctx : Context
  path : String
  flag : Nat
  perm : Nat
  deriving DecidableEq, Repr

/-! ## Channels -/

/-- The state of a Go channel of `IOConnectorResult`: the buffered values,
oldest first, the capacity given to `make`, and whether it has been closed. -/
structure Chan where
  buf : List IOConnectorResult
  cap : Nat
  closed : Bool
  deriving DecidableEq, Repr

/-- A channel value: a reference into the heap of channels. -/
abbrev ChanId := Nat

/-- The state a Go program runs in. -/
structure World where
  fs : FS
  chans : List Chan
  calls : List OpenCall
  deriving DecidableEq, Repr

/-- How a sequential piece of Go fails to return: it blocks forever on a
channel operation, or it panics. -/
inductive Fault where
  | blocked
  | panicked
  deriving DecidableEq, Repr

/-- The state of the channel behind a reference. -/
def World.chan (w : World) (ch : ChanId) : Option Chan :=
  w.chans[ch]?

/-- The expression `make(chan IOConnectorResult, cap)`: a fresh, empty, open channel. -/
def makeChan (cap : Nat) (w : World) : ChanId × World :=
  (w.chans.length,
    { w with chans := w.chans ++ [{ buf := [], cap := cap, closed := false }] })

/-- The statement `ch <- v` with no receiver waiting: it panics on a closed
channel, stores the value when the buffer has room, and blocks otherwise. -/
def chanSend (ch : ChanId) (v : IOConnectorResult) (w : World) : Except Fault World :=
  match w.chan ch with
  | none => .error .blocked
  | some c =>
    if c.closed then .error .panicked
    else if c.buf.length < c.cap then
      .ok { w with chans := w.chans.set ch { c with buf := c.buf ++ [v] } }
    else .error .blocked

/-- The call `close(ch)`: it panics on a channel already closed. -/
def chanClose (ch : ChanId) (w : World) : Except Fault World :=
  match w.chan ch with
  | none => .error .panicked
  | some c =>
    if c.closed then .error .panicked
    else .ok { w with chans := w.chans.set ch { c with closed := true } }

/-- The expression `v, ok := <-ch` with no sender waiting: the oldest buffered
value (`some v`, ok true); on an empty closed channel the closed report
(`none`, ok false); on an empty open channel it blocks. -/
def chanRecv (ch : ChanId) (w : World) : Except Fault (Option IOConnectorResult × World) :=
  match w.chan ch with
  | none => .error .blocked
  | some c =>
    match c.buf with
    | v :: rest => .ok (some v, { w with chans := w.chans.set ch { c with buf := rest } })
    | [] => if c.closed then .ok (none, w) else .error .blocked

/-- A receive on the channel would return at once. -/
def World.readable (w : World) (ch : ChanId) : Bool :=
  match w.chan ch with
  | none => false
  | some c => !c.buf.isEmpty || c.closed

/-- A number of receives in a row on the same channel; the outcomes in order. -/
def recvMany (ch : ChanId) : Nat → World → Except Fault (List (Option IOConnectorResult) × World)
  | 0, w => .ok ([], w)
  | n + 1, w =>
    match chanRecv ch w with
    | .error f => .error f
    | .ok (v, w1) =>
      match recvMany ch n w1 with
      | .error f => .error f
      | .ok (vs, w2) => .ok (v :: vs, w2)

/-! ## The connector -/

/-- The call `fifo.OpenFifo(ctx, path, flag, perm)`: the call is recorded and
its effect on the file system applied. -/
def callOpenFifo (openFifo : OpenFifoFn) (ctx : Context) (path : String) (flag perm : Nat)
    (w : World) : OpenOutcome × World :=
  let r := openFifo ctx path flag perm w.fs
  (r.1, { w with fs := r.2, calls := w.calls ++ [{ ctx := ctx, path := path, flag := flag, perm := perm }] })

/-- Modelled from the spec: the function type `IOConnector`, declared outside
`fifo.go`; "a Connector operation `(context, logger) -> receive-only channel
of Result`".  It runs in a world and returns the channel and the world it
leaves, unless it blocks or panics. -/
abbrev IOConnector := Context → Entry → World → Except Fault (ChanId × World)

/-- The function literal returned by `FIFOConnector` (fifo.go, lines 26-40).
The deferred `close(returnCh)` runs when the body returns, after the send. -/
def FIFOConnector.func1 (openFifo : OpenFifoFn) (path : String) : IOConnector :=
  fun procCtx _logger w =>
    let (returnCh, w1) := makeChan 1 w
    let (res, w2) := callOpenFifo openFifo procCtx path (O_CREAT ||| O_RDWR) 0o300 w1
    match chanSend returnCh { ReadWriteCloser := res.1, Err := res.2 } w2 with
    | .error f => .error f
    | .ok w3 =>
      match chanClose returnCh w3 with
      | .error f => .error f
      | .ok w4 => .ok (returnCh, w4)

/-- The function `FIFOConnector(path)` (fifo.go, line 25): it returns the
closure over `path` and leaves the world as it found it. -/
def FIFOConnector (openFifo : OpenFifoFn) (path : String) (w : World) : IOConnector × World :=
  (FIFOConnector.func1 openFifo path, w)

/-- What the open returns when called, as the connector calls it, on file system `fs`. -/
def openOutcome (openFifo : OpenFifoFn) (procCtx : Context) (path : String) (fs : FS) :
    OpenOutcome :=
  (openFifo procCtx path (O_CREAT ||| O_RDWR) 0o300 fs).1

/-- The file system the open leaves when called, as the connector calls it, on `fs`. -/
def openFS (openFifo : OpenFifoFn) (procCtx : Context) (path : String) (fs : FS) : FS :=
  (openFifo procCtx path (O_CREAT ||| O_RDWR) 0o300 fs).2

/-- The result that mirrors a pair returned by the open. -/
def resultOf (o : OpenOutcome) : IOConnectorResult :=
  { ReadWriteCloser := o.1, Err := o.2 }

/-- The channel state "one result buffered, capacity one, closed". -/
def delivered (r : IOConnectorResult) : Chan :=
  { buf := [r], cap := 1, closed := true }

/-- The world in which an invocation started in `w` returns. -/
def worldAfter (openFifo : OpenFifoFn) (procCtx : Context) (path : String) (w : World) : World :=
  { fs := openFS openFifo procCtx path w.fs
    chans := w.chans ++ [delivered (resultOf (openOutcome openFifo procCtx path w.fs))]
    calls := w.calls ++ [{ ctx := procCtx, path := path, flag := O_CREAT ||| O_RDWR, perm := 0o300 }] }

/-- An open that honours cancellation, as the spec expects of the open: given
a canceled context it returns no handle and an error caused by the
cancellation.  An open that completes before it notices the cancellation, as
a read-write open of a pipe can, does not have this property. -/
def HonoursCancellation (openFifo : OpenFifoFn) : Prop :=
  ∀ ctx path flag perm fs, ctx.canceled = true →
    ∃ e, (openFifo ctx path flag perm fs).1 = (none, some e) ∧ e.isCancellation = true

/-- The world after the one buffered result of a delivered channel was received. -/
def drain (w : World) (ch : ChanId) : World :=
  { w with chans := w.chans.set ch { buf := [], cap := 1, closed := true } }

/-! ## Sample environments -/

/-- The directory a clean path lies in (no trailing slash, no `.` or `..`
component): the path up to its last slash, `/` for an entry of the root and
`.` for a relative name. -/
def parentDir (path : String) : String :=
  let up := ((path.toList.reverse.dropWhile (fun c => c != '/')).drop 1).reverse
  if up.isEmpty then (if path.toList.head? == some '/' then "/" else ".") else String.mk up

/-- A sample open, for evaluating the connector on concrete inputs: what
`fifo.OpenFifo` does on linux when called read-write, on a file system that
lists every directory.  The context plays no part, since a read-write open
of a pipe completes at once.  A directory at the path fails with `EISDIR`
(21); any other existing entry, a pipe or a regular file, is opened as it is.
At a missing path the pipe is created when `O_CREAT` is set and the parent is
a directory; the open fails with `ENOTDIR` (20) under a parent that is no
directory and with `ENOENT` (2) under a missing parent, on the empty path and
without `O_CREAT`. -/
def sampleOpen : OpenFifoFn :=
  fun _ctx path flag _perm fs =>
    match fs.kind path with
    | some FileKind.dir => ((none, some (GoError.errno 21)), fs)
    | some _ => ((some { fd := 3 + fs.entries.length }, none), fs)
    | none =>
      if path.isEmpty then ((none, some (GoError.errno 2)), fs)
      else
        match fs.kind (parentDir path) with
        | some FileKind.dir =>
          if flag &&& O_CREAT != 0 then
            ((some { fd := 3 + fs.entries.length }, none),
              { entries := fs.entries ++ [(path, FileKind.fifo)] })
          else ((none, some (GoError.errno 2)), fs)
        | some _ => ((none, some (GoError.errno 20)), fs)
        | none => ((none, some (GoError.errno 2)), fs)

/-- An open that looks at its context before anything else and reports the
error of a context that is done, touching nothing; on a live context it is
the sample open.  It stands for an open that honours cancellation; the sample
open does not. -/
def abortingOpen : OpenFifoFn :=
  fun ctx path flag perm fs =>
    match ctx.err with
    | some e => ((none, some e), fs)
    | none => sampleOpen ctx path flag perm fs

/-- A world with a directory and nothing else. -/
def emptyWorld : World :=
  { fs := { entries := [("/run/fc", FileKind.dir)] }, chans := [], calls := [] }

/-- A live context. -/
def background : Context := { err := none }

/-- A context canceled before use. -/
def canceledCtx : Context := { err := some GoError.canceled }

/-- A logger without fields. -/
def noLogger : Entry := { fields := [] }

/-! ## The run of one invocation -/

theorem func1_run (openFifo : OpenFifoFn) (path : String) (procCtx : Context) (logger : Entry)
    (w : World) :
    FIFOConnector.func1 openFifo path procCtx logger w
      = .ok (w.chans.length, worldAfter openFifo procCtx path w) := by
  simp [FIFOConnector.func1, makeChan, callOpenFifo, chanSend, chanClose, World.chan,
    worldAfter, openFS, openOutcome, resultOf, delivered]

theorem worldAfter_chan_new (openFifo : OpenFifoFn) (path : String) (procCtx : Context)
    (w : World) :
    (worldAfter openFifo procCtx path w).chan w.chans.length
      = some (delivered (resultOf (openOutcome openFifo procCtx path w.fs))) := by
  simp [worldAfter, World.chan]

theorem chan_lt_of_some {w : World} {ch : ChanId} {c : Chan} (h : w.chan ch = some c) :
    ch < w.chans.length := by
  unfold World.chan at h
  exact (List.getElem?_eq_some.mp h).1

theorem chanRecv_delivered {w : World} {ch : ChanId} {r : IOConnectorResult}
    (h : w.chan ch = some (delivered r)) :
    chanRecv ch w
      = .ok (some r, drain w ch) := by
  simp [chanRecv, h, delivered, drain]

theorem chan_after_drain {w : World} {ch : ChanId} {r : IOConnectorResult}
    (h : w.chan ch = some (delivered r)) :
    (drain w ch).chan ch = some { buf := [], cap := 1, closed := true } := by
  have hlt := chan_lt_of_some h
  simp [World.chan, drain, hlt]

theorem recvMany_drained {w : World} {ch : ChanId} {c : Chan} (h : w.chan ch = some c)
    (hbuf : c.buf = []) (hcl : c.closed = true) (n : Nat) :
    recvMany ch n w = .ok (List.replicate n none, w) := by
  induction n with
  | zero => rfl
  | succ k ih =>
    have hr : chanRecv ch w = .ok (none, w) := by simp [chanRecv, h, hbuf, hcl]
    simp [recvMany, hr, ih, List.replicate_succ]

theorem recvMany_delivered {w : World} {ch : ChanId} {r : IOConnectorResult}
    (h : w.chan ch = some (delivered r)) (n : Nat) :
    recvMany ch (n + 1) w
      = .ok (some r :: List.replicate n none, drain w ch) := by
  have hd := recvMany_drained (chan_after_drain h) rfl rfl n
  simp [recvMany, chanRecv_delivered h, hd]

theorem abortingOpen_honours : HonoursCancellation abortingOpen := by
  intro ctx path flag perm fs hctx
  have herr : ctx.err = some GoError.canceled := by
    simpa [Context.canceled] using hctx
  refine ⟨GoError.canceled, ?_, rfl⟩
  simp [abortingOpen, herr]

/-! ## The connector contract -/

/-- C1: whatever the path, the context, the logger and the outcome of the
open, one invocation of the connector built by `FIFOConnector path` returns a
channel that holds exactly one result and is closed: of any number of receives
in a row the first yields that result and every later one reports the channel
closed. -/
theorem FIFOConnector_one_result_then_closed (openFifo : OpenFifoFn) (path : String)
    (w0 w : World) (procCtx : Context) (logger : Entry) (n : Nat) :
    ∃ ch w1 w2 r,
      (FIFOConnector openFifo path w0).1 procCtx logger w = .ok (ch, w1) ∧
      r = resultOf (openOutcome openFifo procCtx path w.fs) ∧
      w1.chan ch = some { buf := [r], cap := 1, closed := true } ∧
      recvMany ch (n + 1) w1 = .ok (some r :: List.replicate n none, w2) ∧
      w2.chan ch = some { buf := [], cap := 1, closed := true } := by
  refine ⟨w.chans.length, worldAfter openFifo procCtx path w,
    drain (worldAfter openFifo procCtx path w) w.chans.length,
    resultOf (openOutcome openFifo procCtx path w.fs), ?_, rfl, ?_, ?_, ?_⟩
  · exact func1_run openFifo path procCtx logger w
  · exact worldAfter_chan_new openFifo path procCtx w
  · exact recvMany_delivered (worldAfter_chan_new openFifo path procCtx w) n
  · exact chan_after_drain (worldAfter_chan_new openFifo path procCtx w)

/-- C2: the result delivered by the connector mirrors what the open returned:
a handle `h` with a nil error gives the result with handle `h` and nil error,
no handle with an error `e` gives the result with nil handle and error `e`;
so when the open returns one of these two shapes the result is fully
successful or fully failed, and never both. -/
theorem FIFOConnector_result_mirrors_open (openFifo : OpenFifoFn) (path : String)
    (w0 w : World) (procCtx : Context) (logger : Entry) :
    ∃ ch w1 w2 r,
      (FIFOConnector openFifo path w0).1 procCtx logger w = .ok (ch, w1) ∧
      chanRecv ch w1 = .ok (some r, w2) ∧
      r.ReadWriteCloser = (openOutcome openFifo procCtx path w.fs).1 ∧
      r.Err = (openOutcome openFifo procCtx path w.fs).2 ∧
      (∀ h, openOutcome openFifo procCtx path w.fs = (some h, none) →
        r = { ReadWriteCloser := some h, Err := none }) ∧
      (∀ e, openOutcome openFifo procCtx path w.fs = (none, some e) →
        r = { ReadWriteCloser := none, Err := some e }) ∧
      ((openOutcome openFifo procCtx path w.fs).wellFormed = true →
        (r.fullySuccessful = true ∨ r.fullyFailed = true) ∧
        ¬ (r.fullySuccessful = true ∧ r.fullyFailed = true)) := by
  refine ⟨w.chans.length, worldAfter openFifo procCtx path w,
    drain (worldAfter openFifo procCtx path w) w.chans.length,
    resultOf (openOutcome openFifo procCtx path w.fs), ?_, ?_, rfl, rfl, ?_, ?_, ?_⟩
  · exact func1_run openFifo path procCtx logger w
  · exact chanRecv_delivered (worldAfter_chan_new openFifo path procCtx w)
  · intro h hh
    simp [resultOf, hh]
  · intro e he
    simp [resultOf, he]
  · generalize openOutcome openFifo procCtx path w.fs = o
    rcases o with ⟨_ | h, _ | e⟩ <;>
      simp [OpenOutcome.wellFormed, resultOf, IOConnectorResult.fullySuccessful,
        IOConnectorResult.fullyFailed]

/-- C4: invoking the connector built for path `p` with context `c` calls the
open with exactly `(c, p, O_CREAT|O_RDWR, 0300)`: whatever the open is, the
call on record has these arguments, and the file system at return and the
result delivered are those of the open applied to them; the flags have the
create bit set, read-write as access mode and the non-blocking bit clear; the
mode is owner-write plus owner-execute, with owner-read and all group and
other bits clear. -/
theorem FIFOConnector_open_arguments (openFifo : OpenFifoFn) (p : String)
    (w0 w : World) (c : Context) (logger : Entry) :
    (∃ ch w1 w2 r,
      (FIFOConnector openFifo p w0).1 c logger w = .ok (ch, w1) ∧
      w1.calls = w.calls ++ [{ ctx := c, path := p, flag := O_CREAT ||| O_RDWR, perm := 0o300 }] ∧
      w1.fs = (openFifo c p (O_CREAT ||| O_RDWR) 0o300 w.fs).2 ∧
      chanRecv ch w1 = .ok (some r, w2) ∧
      r.ReadWriteCloser = (openFifo c p (O_CREAT ||| O_RDWR) 0o300 w.fs).1.1 ∧
      r.Err = (openFifo c p (O_CREAT ||| O_RDWR) 0o300 w.fs).1.2) ∧
    (O_CREAT ||| O_RDWR) &&& O_CREAT = O_CREAT ∧
    (O_CREAT ||| O_RDWR) &&& O_ACCMODE = O_RDWR ∧
    (O_CREAT ||| O_RDWR) &&& O_NONBLOCK = 0 ∧
    (0o300 : Nat) = 0o200 + 0o100 ∧
    (0o300 : Nat) &&& 0o400 = 0 ∧
    (0o300 : Nat) &&& 0o077 = 0 := by
  refine ⟨⟨w.chans.length, worldAfter openFifo c p w,
    drain (worldAfter openFifo c p w) w.chans.length,
    resultOf (openOutcome openFifo c p w.fs), ?_, rfl, rfl, ?_, rfl, rfl⟩, ?_, ?_, ?_, ?_, ?_, ?_⟩
  · exact func1_run openFifo p c logger w
  · exact chanRecv_delivered (worldAfter_chan_new openFifo p c w)
  all_goals decide

/-- C5: constructing a connector has no effect: `FIFOConnector p` returns the
world it was given, so no call of the open is recorded and the file system is
unchanged; the open is called when the returned connector is invoked. -/
theorem FIFOConnector_construction_no_effect (openFifo : OpenFifoFn) (p : String) (w0 : World) :
    (FIFOConnector openFifo p w0).2 = w0 ∧
    (FIFOConnector openFifo p w0).2.calls = w0.calls ∧
    (FIFOConnector openFifo p w0).2.fs = w0.fs ∧
    ∀ (procCtx : Context) (logger : Entry) (w : World), ∃ ch w1,
      (FIFOConnector openFifo p w0).1 procCtx logger w = .ok (ch, w1) ∧
      w1.calls.length = w.calls.length + 1 ∧
      w1.fs = (openFifo procCtx p (O_CREAT ||| O_RDWR) 0o300 w.fs).2 := by
  refine ⟨rfl, rfl, rfl, ?_⟩
  intro procCtx logger w
  refine ⟨w.chans.length, worldAfter openFifo procCtx p w, ?_, ?_, rfl⟩
  · exact func1_run openFifo p procCtx logger w
  · simp [worldAfter]

/-- C6, as amended: if the context is already canceled, the connector does not
look at it: it calls the open once with that very context and delivers
exactly the pair the open returned, leaving the file system of that call; so,
if the open honours cancellation, the result delivered has a nil handle and a
non-nil error caused by the cancellation. -/
theorem FIFOConnector_canceled_context (openFifo : OpenFifoFn) (path : String)
    (w0 w : World) (procCtx : Context) (logger : Entry)
    (hctx : procCtx.canceled = true) :
    ∃ ch w1 w2 r,
      (FIFOConnector openFifo path w0).1 procCtx logger w = .ok (ch, w1) ∧
      w1.calls = w.calls ++ [{ ctx := procCtx, path := path, flag := O_CREAT ||| O_RDWR, perm := 0o300 }] ∧
      w1.fs = (openFifo procCtx path (O_CREAT ||| O_RDWR) 0o300 w.fs).2 ∧
      chanRecv ch w1 = .ok (some r, w2) ∧
      r.ReadWriteCloser = (openFifo procCtx path (O_CREAT ||| O_RDWR) 0o300 w.fs).1.1 ∧
      r.Err = (openFifo procCtx path (O_CREAT ||| O_RDWR) 0o300 w.fs).1.2 ∧
      (HonoursCancellation openFifo →
        r.ReadWriteCloser = none ∧ ∃ e, r.Err = some e ∧ e.isCancellation = true) := by
  refine ⟨w.chans.length, worldAfter openFifo procCtx path w,
    drain (worldAfter openFifo procCtx path w) w.chans.length,
    resultOf (openOutcome openFifo procCtx path w.fs), ?_, rfl, rfl, ?_, rfl, rfl, ?_⟩
  · exact func1_run openFifo path procCtx logger w
  · exact chanRecv_delivered (worldAfter_chan_new openFifo path procCtx w)
  · intro hopen
    obtain ⟨e, he, hcause⟩ := hopen procCtx path (O_CREAT ||| O_RDWR) 0o300 w.fs hctx
    refine ⟨?_, e, ?_, hcause⟩
    · simp [resultOf, openOutcome, he]
    · simp [resultOf, openOutcome, he]

/-- C6, counterexample: the connector does not look at the context itself; with
an open that completes although the context is canceled, the result delivered
for a canceled context has a handle and a nil error. -/
theorem canceled_context_result_can_succeed :
    canceledCtx.canceled = true ∧
    ∃ w1 w2,
      (FIFOConnector sampleOpen "/run/fc/stdout" emptyWorld).1 canceledCtx noLogger
        emptyWorld = .ok (0, w1) ∧
      chanRecv 0 w1 = .ok (some { ReadWriteCloser := some { fd := 4 }, Err := none }, w2) := by
  refine ⟨by decide, _, _, rfl, rfl⟩

/-- C7, as amended: the open runs inside the invocation, in the execution of
the caller: the channel is returned after the open has completed, the result
has been sent and the channel has been closed, so the caller finds the
returned channel readable at once and a first receive yields the result
without blocking. -/
theorem FIFOConnector_channel_readable_at_return (openFifo : OpenFifoFn) (path : String)
    (w0 w : World) (procCtx : Context) (logger : Entry) :
    ∃ ch w1 w2,
      (FIFOConnector openFifo path w0).1 procCtx logger w = .ok (ch, w1) ∧
      w1.calls.length = w.calls.length + 1 ∧
      w1.fs = (openFifo procCtx path (O_CREAT ||| O_RDWR) 0o300 w.fs).2 ∧
      w1.readable ch = true ∧
      (∃ c, w1.chan ch = some c ∧ c.closed = true ∧ c.buf.length = 1) ∧
      chanRecv ch w1 = .ok (some (resultOf (openOutcome openFifo procCtx path w.fs)), w2) := by
  refine ⟨w.chans.length, worldAfter openFifo procCtx path w,
    drain (worldAfter openFifo procCtx path w) w.chans.length, ?_, ?_, rfl, ?_, ?_, ?_⟩
  · exact func1_run openFifo path procCtx logger w
  · simp [worldAfter]
  · simp [World.readable, worldAfter_chan_new, delivered]
  · exact ⟨_, worldAfter_chan_new openFifo path procCtx w, rfl, rfl⟩
  · exact chanRecv_delivered (worldAfter_chan_new openFifo path procCtx w)

/-- C7, counterexample: no invocation of the connector, whatever the open, the
path, the context and the world, returns a channel on which a receive would
have to wait: the state "not yet readable" is never observable by the caller;
on a sample input the channel comes back closed with the result in it and the
open already on record. -/
theorem returned_channel_never_unreadable :
    (¬ ∃ (openFifo : OpenFifoFn) (path : String) (w0 w : World) (procCtx : Context)
        (logger : Entry) (ch : ChanId) (w1 : World),
        (FIFOConnector openFifo path w0).1 procCtx logger w = .ok (ch, w1) ∧
        w1.readable ch = false) ∧
    ∃ w1,
      (FIFOConnector (sampleOpen) "/run/fc/stdout" emptyWorld).1 background noLogger
        emptyWorld = .ok (0, w1) ∧
      w1.chan 0 = some { buf := [{ ReadWriteCloser := some { fd := 4 }, Err := none }],
                         cap := 1, closed := true } ∧
      w1.calls = [{ ctx := background, path := "/run/fc/stdout", flag := 66, perm := 192 }] ∧
      w1.fs.isFifo "/run/fc/stdout" = true := by
  refine ⟨?_, _, rfl, rfl, rfl, rfl⟩
  rintro ⟨openFifo, path, w0, w, procCtx, logger, ch, w1, hrun, hunread⟩
  have h := func1_run openFifo path procCtx logger w
  simp only [FIFOConnector] at hrun
  rw [h] at hrun
  injection hrun with hrun
  injection hrun with hch hw
  subst hch
  subst hw
  simp [World.readable, worldAfter_chan_new, delivered] at hunread

/-- C8: the connector does not retry and keeps the failure: whatever the open
returns, one invocation records exactly one call of the open and leaves the
file system of that one call, and when the call fails with error `e` the
result delivered carries `e` itself. -/
theorem FIFOConnector_single_open_error_kept (openFifo : OpenFifoFn) (path : String)
    (w0 w : World) (procCtx : Context) (logger : Entry) :
    ∃ ch w1 w2 r,
      (FIFOConnector openFifo path w0).1 procCtx logger w = .ok (ch, w1) ∧
      w1.calls = w.calls ++ [{ ctx := procCtx, path := path, flag := O_CREAT ||| O_RDWR, perm := 0o300 }] ∧
      w1.calls.length = w.calls.length + 1 ∧
      w1.fs = (openFifo procCtx path (O_CREAT ||| O_RDWR) 0o300 w.fs).2 ∧
      chanRecv ch w1 = .ok (some r, w2) ∧
      ∀ e, (openFifo procCtx path (O_CREAT ||| O_RDWR) 0o300 w.fs).1.2 = some e →
        r.Err = some e := by
  refine ⟨w.chans.length, worldAfter openFifo procCtx path w,
    drain (worldAfter openFifo procCtx path w) w.chans.length,
    resultOf (openOutcome openFifo procCtx path w.fs), ?_, rfl, ?_, rfl, ?_, ?_⟩
  · exact func1_run openFifo path procCtx logger w
  · simp [worldAfter]
  · exact chanRecv_delivered (worldAfter_chan_new openFifo path procCtx w)
  · intro e he
    simpa [resultOf, openOutcome] using he

/-- C10: handing the result over never blocks the producer: the channel is
made with capacity one and is empty and open where the result is sent, so the
send completes with no receiver; the buffer then holds one value, within the
capacity, the channel is still open, and the close comes after the send. -/
theorem FIFOConnector_send_never_blocks (openFifo : OpenFifoFn) (path : String)
    (w0 w : World) (procCtx : Context) (logger : Entry) :
    ∃ ch wMade out wOpened wSent wClosed,
      makeChan 1 w = (ch, wMade) ∧
      callOpenFifo openFifo procCtx path (O_CREAT ||| O_RDWR) 0o300 wMade = (out, wOpened) ∧
      wOpened.chan ch = some { buf := [], cap := 1, closed := false } ∧
      chanSend ch { ReadWriteCloser := out.1, Err := out.2 } wOpened = .ok wSent ∧
      wSent.chan ch = some { buf := [{ ReadWriteCloser := out.1, Err := out.2 }],
                             cap := 1, closed := false } ∧
      chanClose ch wSent = .ok wClosed ∧
      wClosed.chan ch = some { buf := [{ ReadWriteCloser := out.1, Err := out.2 }],
                               cap := 1, closed := true } ∧
      (FIFOConnector openFifo path w0).1 procCtx logger w = .ok (ch, wClosed) ∧
      (∀ v ∈ [wMade, wOpened, wSent, wClosed], ∀ c, v.chan ch = some c → c.buf.length ≤ c.cap) := by
  refine ⟨w.chans.length, (makeChan 1 w).2,
    (callOpenFifo openFifo procCtx path (O_CREAT ||| O_RDWR) 0o300 (makeChan 1 w).2).1,
    (callOpenFifo openFifo procCtx path (O_CREAT ||| O_RDWR) 0o300 (makeChan 1 w).2).2,
    { (callOpenFifo openFifo procCtx path (O_CREAT ||| O_RDWR) 0o300 (makeChan 1 w).2).2 with
      chans := w.chans ++ [{ buf := [resultOf (openOutcome openFifo procCtx path w.fs)],
                             cap := 1, closed := false }] },
    worldAfter openFifo procCtx path w, rfl, rfl, ?_, ?_, ?_, ?_, ?_, ?_, ?_⟩
  · simp [makeChan, callOpenFifo, World.chan]
  · simp [makeChan, callOpenFifo, chanSend, World.chan, resultOf, openOutcome]
  · simp [makeChan, callOpenFifo, World.chan, resultOf, openOutcome]
  · simp [makeChan, callOpenFifo, chanClose, World.chan, worldAfter, resultOf, openOutcome,
      openFS, delivered]
  · simp [makeChan, callOpenFifo, World.chan, worldAfter, resultOf, openOutcome, delivered]
  · exact func1_run openFifo path procCtx logger w
  · intro v hv c hc
    simp only [List.mem_cons, List.mem_singleton, List.not_mem_nil, or_false] at hv
    rcases hv with rfl | rfl | rfl | rfl <;>
      simp [makeChan, callOpenFifo, World.chan, worldAfter, delivered] at hc <;>
      subst hc <;> simp

/-! ## The theorems at sample inputs -/

/-- C2 at a sample input: a successful open gives the fully successful result. -/
theorem FIFOConnector_result_mirrors_open_witness :
    (openOutcome (sampleOpen) background "/run/fc/stdout" emptyWorld.fs).wellFormed = true ∧
    ∃ ch w1 w2 r,
      (FIFOConnector (sampleOpen) "/run/fc/stdout" emptyWorld).1 background noLogger
        emptyWorld = .ok (ch, w1) ∧
      chanRecv ch w1 = .ok (some r, w2) ∧
      r.fullySuccessful = true ∧ r.fullyFailed = false := by
  refine ⟨by decide, ?_⟩
  obtain ⟨ch, w1, w2, r, hrun, hrecv, hh, he, -, -, -⟩ :=
    FIFOConnector_result_mirrors_open (sampleOpen) "/run/fc/stdout" emptyWorld emptyWorld
      background noLogger
  refine ⟨ch, w1, w2, r, hrun, hrecv, ?_, ?_⟩
  · simp only [IOConnectorResult.fullySuccessful, hh, he]
    decide
  · simp only [IOConnectorResult.fullyFailed, hh, he]
    decide

/-- C6 as amended, at a sample input: with an open that honours cancellation
the canceled context gives a result with nil handle and a cancellation error. -/
theorem FIFOConnector_canceled_context_witness :
    canceledCtx.canceled = true ∧ HonoursCancellation abortingOpen ∧
    ∃ ch w1 w2 r,
      (FIFOConnector abortingOpen "/run/fc/stdout" emptyWorld).1 canceledCtx noLogger
        emptyWorld = .ok (ch, w1) ∧
      chanRecv ch w1 = .ok (some r, w2) ∧
      r.ReadWriteCloser = none ∧ r.Err = some GoError.canceled ∧
      w1.calls = [{ ctx := canceledCtx, path := "/run/fc/stdout", flag := 66, perm := 192 }] := by
  refine ⟨by decide, abortingOpen_honours, ?_⟩
  obtain ⟨ch, w1, w2, r, hrun, hcalls, -, hrecv, hh, he, -⟩ :=
    FIFOConnector_canceled_context abortingOpen "/run/fc/stdout" emptyWorld emptyWorld
      canceledCtx noLogger (by decide)
  exact ⟨ch, w1, w2, r, hrun, hrecv, hh, he, hcalls⟩

end FirecrackerContainerd.VM
